import Mathlib

/-!
# Verification of the StockSim paper-trading settlement core

A shallow embedding of the settlement/ledger core of `server.js`:
the trade validator (`validateTradeRequest`), the settlement engine
(`POST /api/buy`, `POST /api/sell`), registration and the tutorial cash
award, JSON persistence of the two collections, and the leaderboard
aggregation. JavaScript numbers are modelled as exact rationals (ℚ);
JavaScript objects used as string-keyed maps are modelled as association
lists in insertion order, which is the enumeration order of string keys
in a JS object. The suspicious-activity log is a fire-and-forget
observability sink separate from the ledger and is not part of the state.
-/

namespace StockSim

/-- ASCII uppercase of one character, as JS `String.prototype.toUpperCase`
acts on the ASCII ticker symbols this server handles. -/
def toUpperChar (c : Char) : Char :=
  if 'a' ≤ c ∧ c ≤ 'z' then Char.ofNat (c.toNat - 32) else c

/-- `symbol.toUpperCase()` on an ASCII ticker symbol. -/
def toUpperCase (s : String) : String := ⟨s.data.map toUpperChar⟩

/-- A JS object used as a string-keyed map, in key insertion order. -/
abbrev Obj (α : Type) := List (String × α)

/-- Property access `o[k]` on a JS object. -/
def objGet {α : Type} (o : Obj α) (k : String) : Option α :=
  match o with
  | [] => none
  | (k0, v0) :: rest => if k0 = k then some v0 else objGet rest k

/-- Property assignment `o[k] = v`: overwrites the binding in place if the
key is present, otherwise appends it at the end (JS object key order;
keys of a JS object are unique, so at most one binding can match). -/
def objSet {α : Type} (o : Obj α) (k : String) (v : α) : Obj α :=
  match o with
  | [] => [(k, v)]
  | (k0, v0) :: rest =>
    if k0 = k then (k, v) :: rest else (k0, v0) :: objSet rest k v

/-- `delete o[k]` on a JS object. -/
def objDelete {α : Type} (o : Obj α) (k : String) : Obj α :=
  o.filter (fun x => x.1 ≠ k)

/-- A per-symbol position: `{ quantity, avgPrice }` (server.js line 533). -/
structure Holding where
  quantity : ℚ
  avgPrice : ℚ
deriving Repr, DecidableEq

/-- `user.portfolio`: a JS object mapping symbol → holding. -/
abbrev Portfolio := Obj Holding

/-- An entry of `user.persistentSessions` (server.js line 323). -/
structure Session where
  token : String
  expires : ℚ
deriving Repr, DecidableEq

/-- A user account as created by `POST /api/register` (server.js lines 303-315). -/
structure User where
  userId : String
  username : String
  password : String
  cash : ℚ
  portfolio : Portfolio
  tutorialStep : ℕ
  tutorialCompleted : Bool
  uiTutorialCompleted : Bool
  persistentSessions : List Session
  createdAt : ℚ
  lastActivity : ℚ
deriving Repr, DecidableEq

/-- An append-only ledger entry (server.js lines 545-552). -/
structure Transaction where
  userId : String
  type : String
  symbol : String
  quantity : ℚ
  price : ℚ
  timestamp : ℚ
deriving Repr, DecidableEq

/-- The `users` JS object, keyed by userId. -/
abbrev Users := Obj User

/-- The mutable module-level state of server.js: `let users = {}` and
`let transactions = []` (lines 22-23). -/
structure ServerState where
  users : Users
  transactions : List Transaction
deriving Repr, DecidableEq

/-- The state at process start before any request, with no backing files. -/
def initialState : ServerState := ⟨[], []⟩

/-- `Number.isInteger(q)` for an exact rational. -/
def isInteger (q : ℚ) : Bool := q.den = 1

/-- The quantity, price and trading-velocity checks of `validateTradeRequest`
(server.js lines 208-228), run after the user-existence check. Returns
`some reason` on failure, `none` when valid. The `logSuspiciousActivity`
calls touch only the observability sink, not the ledger. -/
def validateTradeChecks (transactions : List Transaction) (now : ℚ)
    (userId : String) (quantity price : ℚ) : Option String :=
  if ¬ (0 < quantity ∧ isInteger quantity) then
    some "Invalid quantity"
  else if ¬ (0 < price) then
    some "Invalid price"
  else
    let recentTrades := transactions.filter
      (fun t => t.userId = userId ∧ now - t.timestamp < 1000)
    if 5 < recentTrades.length then
      some "Trading too quickly"
    else
      none

/-- `validateTradeRequest(userId, symbol, quantity, price)` (server.js
lines 204-229): user existence first, then the remaining checks. The
`symbol` argument is used only in the suspicious-activity log entries. -/
def validateTradeRequest (st : ServerState) (now : ℚ)
    (userId : String) (quantity price : ℚ) : Option String :=
  match objGet st.users userId with
  | none => some "User not found"
  | some _ => validateTradeChecks st.transactions now userId quantity price

/-- Outcome of a buy/sell request: success payload `{cash, portfolio}`,
a 400 with a reason string, or a 500 carrying the gateway error message. -/
inductive TradeResult where
  | ok (cash : ℚ) (portfolio : Portfolio)
  | clientError (reason : String)
  | serverError (message : String)
deriving Repr, DecidableEq

def TradeResult.isOk : TradeResult → Bool
  | .ok _ _ => true
  | _ => false

/-- The market-data gateway: `fetchStockPrice` either yields a positive
price or throws; modelled as a function from the requested symbol to an
`Except`. The route handlers call it on `symbol.toUpperCase()`. -/
abbrev PriceFeed := String → Except String ℚ

/-- `POST /api/buy` (server.js lines 507-565). `symbol?`/`quantity?` are the
request-body fields (`none` = absent); `!symbol || !quantity` also fires on
the falsy values `""` and `0`. The price is fetched for the upper-cased
symbol before validation; the holding and the transaction are stored under
the symbol exactly as submitted. -/
def buy (st : ServerState) (fetch : PriceFeed) (now : ℚ) (userId : String)
    (symbolOpt : Option String) (quantityOpt : Option ℚ) :
    ServerState × TradeResult :=
  match symbolOpt, quantityOpt with
  | some symbol, some quantity =>
    if symbol = "" ∨ quantity = 0 then
      (st, .clientError "Symbol and quantity required")
    else
      match fetch (toUpperCase symbol) with
      | .error msg => (st, .serverError msg)
      | .ok price =>
        match objGet st.users userId with
        | none => (st, .clientError "User not found")
        | some user =>
          match validateTradeChecks st.transactions now userId quantity price with
          | some reason => (st, .clientError reason)
          | none =>
            let cost := price * quantity
            if user.cash < cost then
              (st, .clientError "Insufficient funds")
            else
              let currentHolding := (objGet user.portfolio symbol).getD ⟨0, 0⟩
              let totalShares := currentHolding.quantity + quantity
              let totalCost := currentHolding.avgPrice * currentHolding.quantity + cost
              let user' : User :=
                { user with
                  cash := user.cash - cost
                  portfolio := objSet user.portfolio symbol
                    ⟨totalShares, totalCost / totalShares⟩ }
              let tx : Transaction :=
                ⟨userId, "BUY", symbol, quantity, price, now⟩
              (⟨objSet st.users userId user', st.transactions ++ [tx]⟩,
               .ok user'.cash user'.portfolio)
  | _, _ => (st, .clientError "Symbol and quantity required")

/-- `POST /api/sell` (server.js lines 567-619). Same shape as `buy`; fails
`Insufficient shares` when no holding exists under the submitted symbol
string or the held quantity is below the requested one; a holding drained
to exactly 0 is deleted from the portfolio. -/
def sell (st : ServerState) (fetch : PriceFeed) (now : ℚ) (userId : String)
    (symbolOpt : Option String) (quantityOpt : Option ℚ) :
    ServerState × TradeResult :=
  match symbolOpt, quantityOpt with
  | some symbol, some quantity =>
    if symbol = "" ∨ quantity = 0 then
      (st, .clientError "Symbol and quantity required")
    else
      match fetch (toUpperCase symbol) with
      | .error msg => (st, .serverError msg)
      | .ok price =>
        match objGet st.users userId with
        | none => (st, .clientError "User not found")
        | some user =>
          match validateTradeChecks st.transactions now userId quantity price with
          | some reason => (st, .clientError reason)
          | none =>
            match objGet user.portfolio symbol with
            | none => (st, .clientError "Insufficient shares")
            | some holding =>
              if holding.quantity < quantity then
                (st, .clientError "Insufficient shares")
              else
                let proceeds := price * quantity
                let newQuantity := holding.quantity - quantity
                let portfolio' :=
                  if newQuantity = 0 then
                    objDelete user.portfolio symbol
                  else
                    objSet user.portfolio symbol { holding with quantity := newQuantity }
                let user' : User :=
                  { user with
                    cash := user.cash + proceeds
                    portfolio := portfolio' }
                let tx : Transaction :=
                  ⟨userId, "SELL", symbol, quantity, price, now⟩
                (⟨objSet st.users userId user', st.transactions ++ [tx]⟩,
                 .ok user'.cash user'.portfolio)
  | _, _ => (st, .clientError "Symbol and quantity required")

/-- ASCII lowercase of one character, as JS `String.prototype.toLowerCase`. -/
def toLowerChar (c : Char) : Char :=
  if 'A' ≤ c ∧ c ≤ 'Z' then Char.ofNat (c.toNat + 32) else c

/-- `username.toLowerCase()` on an ASCII username. -/
def toLowerCase (s : String) : String := ⟨s.data.map toLowerChar⟩

/-- `SESSION_DURATION = 30 * 24 * 60 * 60 * 1000` (server.js line 9). -/
def SESSION_DURATION : ℚ := 30 * 24 * 60 * 60 * 1000

/-- `POST /api/register` (server.js lines 281-335), restricted to its effect
on the ledger state. `newUserId` and `token` stand for the values of
`crypto.randomBytes(...)`; `hash` is the external `hashPassword`
collaborator (sha256 hex digest). Falsy (missing or empty) username or
password, a bad length, or a case-insensitive username collision leave the
state unchanged; otherwise the new account is created with zero cash, an
empty portfolio and one persistent session. -/
def register (st : ServerState) (now : ℚ) (newUserId token : String)
    (hash : String → String) (usernameOpt passwordOpt : Option String) :
    ServerState :=
  match usernameOpt, passwordOpt with
  | some username, some password =>
    if username = "" ∨ password = "" then st
    else if username.length < 3 ∨ 20 < username.length then st
    else if password.length < 6 then st
    else if st.users.any
        (fun x => toLowerCase x.2.username = toLowerCase username) then st
    else
      let newUser : User :=
        { userId := newUserId
          username := username
          password := hash password
          cash := 0
          portfolio := []
          tutorialStep := 0
          tutorialCompleted := false
          uiTutorialCompleted := false
          persistentSessions := [⟨token, now + SESSION_DURATION⟩]
          createdAt := now
          lastActivity := now }
      ⟨objSet st.users newUserId newUser, st.transactions⟩
  | _, _ => st

/-- The `correctAnswer` indices of `TUTORIAL_LESSONS` (server.js lines
28-94); only the answer-checking data of the lessons feeds the settlement
state, so titles, contents and option texts are not modelled. -/
def TUTORIAL_CORRECT_ANSWERS : List ℚ := [1, 2, 1, 1, 1]

/-- `POST /api/tutorial/answer` (server.js lines 448-492), restricted to
its effect on the ledger state: a correct answer advances `tutorialStep`;
answering the final lesson correctly sets `tutorialCompleted` and awards
`cash = 100000`. -/
def tutorialAnswer (st : ServerState) (userId : String) (answerIndex : ℚ) :
    ServerState :=
  match objGet st.users userId with
  | none => st
  | some user =>
    let step := user.tutorialStep
    if TUTORIAL_CORRECT_ANSWERS.length ≤ step then st
    else if answerIndex ≠ TUTORIAL_CORRECT_ANSWERS.getD step 0 then st
    else if TUTORIAL_CORRECT_ANSWERS.length ≤ step + 1 then
      ⟨objSet st.users userId
        { user with tutorialStep := step + 1, tutorialCompleted := true,
                    cash := 100000 },
       st.transactions⟩
    else
      ⟨objSet st.users userId { user with tutorialStep := step + 1 },
       st.transactions⟩

/-- One ledger-mutating request: registration, a tutorial answer (whose
final correct answer is the cash award), a buy or a sell. -/
inductive Op where
  | register (now : ℚ) (newUserId token : String) (hash : String → String)
      (usernameOpt passwordOpt : Option String)
  | tutorialAnswer (userId : String) (answerIndex : ℚ)
  | buy (fetch : PriceFeed) (now : ℚ) (userId : String)
      (symbolOpt : Option String) (quantityOpt : Option ℚ)
  | sell (fetch : PriceFeed) (now : ℚ) (userId : String)
      (symbolOpt : Option String) (quantityOpt : Option ℚ)

/-- The state reached after one request. -/
def applyOp (st : ServerState) : Op → ServerState
  | .register now newUserId token hash usernameOpt passwordOpt =>
      register st now newUserId token hash usernameOpt passwordOpt
  | .tutorialAnswer userId answerIndex => tutorialAnswer st userId answerIndex
  | .buy fetch now userId symbolOpt quantityOpt =>
      (buy st fetch now userId symbolOpt quantityOpt).1
  | .sell fetch now userId symbolOpt quantityOpt =>
      (sell st fetch now userId symbolOpt quantityOpt).1

/-- The state reached after a sequence of requests. -/
def applyOps (st : ServerState) (ops : List Op) : ServerState :=
  ops.foldl applyOp st

/-- Invariant 1 of the spec: every account's cash is non-negative. -/
def cashInvariant (st : ServerState) : Prop :=
  ∀ p ∈ st.users, 0 ≤ p.2.cash

/-- Invariant 2 of the spec: every holding present in a portfolio has
positive quantity. -/
def portfolioInvariant (st : ServerState) : Prop :=
  ∀ p ∈ st.users, ∀ e ∈ p.2.portfolio, 0 < e.2.quantity

/-! ## Basic lemmas about JS-object access -/

theorem objGet_mem {α : Type} {o : Obj α} {k : String} {v : α}
    (h : objGet o k = some v) : (k, v) ∈ o := by
  induction o with
  | nil => simp [objGet] at h
  | cons x rest ih =>
    obtain ⟨k0, v0⟩ := x
    by_cases hk : k0 = k
    · subst hk
      simp [objGet] at h
      subst h
      exact List.mem_cons_self _ _
    · simp [objGet, hk] at h
      exact List.mem_cons_of_mem _ (ih h)

theorem mem_objSet {α : Type} {o : Obj α} {k : String} {v : α}
    {p : String × α} (h : p ∈ objSet o k v) : p = (k, v) ∨ p ∈ o := by
  induction o with
  | nil => simpa [objSet] using h
  | cons x rest ih =>
    obtain ⟨k0, v0⟩ := x
    by_cases hk : k0 = k
    · subst hk
      rcases List.mem_cons.mp (by simpa [objSet] using h) with h' | h'
      · exact Or.inl h'
      · exact Or.inr (List.mem_cons_of_mem _ h')
    · rcases List.mem_cons.mp (by simpa [objSet, hk] using h) with h' | h'
      · exact Or.inr (h' ▸ List.mem_cons_self _ _)
      · rcases ih h' with h'' | h''
        · exact Or.inl h''
        · exact Or.inr (List.mem_cons_of_mem _ h'')

theorem mem_objDelete {α : Type} {o : Obj α} {k : String}
    {p : String × α} (h : p ∈ objDelete o k) : p ∈ o :=
  List.mem_of_mem_filter h

theorem objGet_objSet_self {α : Type} (o : Obj α) (k : String) (v : α) :
    objGet (objSet o k v) k = some v := by
  induction o with
  | nil => simp [objSet, objGet]
  | cons x rest ih =>
    obtain ⟨k0, v0⟩ := x
    by_cases hk : k0 = k
    · subst hk
      simp [objSet, objGet]
    · simpa [objSet, objGet, hk] using ih


theorem objGet_objDelete_self {α : Type} (o : Obj α) (k : String) :
    objGet (objDelete o k) k = none := by
  induction o with
  | nil => rfl
  | cons x rest ih =>
    obtain ⟨k0, v0⟩ := x
    by_cases hk : k0 = k
    · simpa [objDelete, hk] using ih
    · simpa [objDelete, objGet, hk] using ih

/-- A valid trade request has a positive integral quantity and a positive
price (the first two checks of `validateTradeRequest`). -/
theorem validateTradeChecks_none {txs : List Transaction} {now : ℚ}
    {uid : String} {q price : ℚ}
    (h : validateTradeChecks txs now uid q price = none) :
    0 < q ∧ isInteger q = true ∧ 0 < price := by
  unfold validateTradeChecks at h
  split at h
  · exact absurd h (by simp)
  · split at h
    · exact absurd h (by simp)
    · rename_i h1 h2
      rw [not_not] at h1 h2
      exact ⟨h1.1, h1.2, h2⟩

/-! ## Inversion and frame lemmas for the settlement operations -/

/-- A buy either leaves the state untouched or succeeds. -/
theorem buy_frame_or_ok (st : ServerState) (fetch : PriceFeed) (now : ℚ)
    (userId : String) (so : Option String) (qo : Option ℚ) :
    (buy st fetch now userId so qo).1 = st ∨
      (buy st fetch now userId so qo).2.isOk = true := by
  rcases so with _ | sym
  · exact Or.inl rfl
  rcases qo with _ | q
  · exact Or.inl rfl
  by_cases h0 : sym = "" ∨ q = 0
  · simp [buy, h0]
  rcases hfe : fetch (toUpperCase sym) with msg | price
  · simp [buy, h0, hfe]
  rcases hu : objGet st.users userId with _ | user
  · simp [buy, h0, hfe, hu]
  rcases hv : validateTradeChecks st.transactions now userId q price
    with _ | reason
  on_goal 2 => simp [buy, h0, hfe, hu, hv]
  by_cases hc : user.cash < price * q
  · simp [buy, h0, hfe, hu, hv, hc]
  · simp [buy, h0, hfe, hu, hv, hc, TradeResult.isOk]

/-- A sell either leaves the state untouched or succeeds. -/
theorem sell_frame_or_ok (st : ServerState) (fetch : PriceFeed) (now : ℚ)
    (userId : String) (so : Option String) (qo : Option ℚ) :
    (sell st fetch now userId so qo).1 = st ∨
      (sell st fetch now userId so qo).2.isOk = true := by
  rcases so with _ | sym
  · exact Or.inl rfl
  rcases qo with _ | q
  · exact Or.inl rfl
  by_cases h0 : sym = "" ∨ q = 0
  · simp [sell, h0]
  rcases hfe : fetch (toUpperCase sym) with msg | price
  · simp [sell, h0, hfe]
  rcases hu : objGet st.users userId with _ | user
  · simp [sell, h0, hfe, hu]
  rcases hv : validateTradeChecks st.transactions now userId q price
    with _ | reason
  on_goal 2 => simp [sell, h0, hfe, hu, hv]
  rcases hh : objGet user.portfolio sym with _ | holding
  · simp [sell, h0, hfe, hu, hv, hh]
  by_cases hc : holding.quantity < q
  · simp [sell, h0, hfe, hu, hv, hh, hc]
  · simp [sell, h0, hfe, hu, hv, hh, hc, TradeResult.isOk]

/-- Inversion of a successful buy: the request fields were present and
truthy, the gateway returned a price for the upper-cased symbol, the user
exists, validation passed, cash covered the cost, and the resulting state
is the weighted-average settlement of server.js lines 530-552. -/
theorem buy_ok_inv (st : ServerState) (fetch : PriceFeed) (now : ℚ)
    (userId : String) (so : Option String) (qo : Option ℚ)
    (hok : (buy st fetch now userId so qo).2.isOk = true) :
    ∃ sym q price user,
      so = some sym ∧ qo = some q ∧
      ¬ (sym = "" ∨ q = 0) ∧
      fetch (toUpperCase sym) = .ok price ∧
      objGet st.users userId = some user ∧
      validateTradeChecks st.transactions now userId q price = none ∧
      ¬ user.cash < price * q ∧
      buy st fetch now userId so qo =
        (⟨objSet st.users userId
            { user with
              cash := user.cash - price * q
              portfolio := objSet user.portfolio sym
                ⟨((objGet user.portfolio sym).getD ⟨0, 0⟩).quantity + q,
                 (((objGet user.portfolio sym).getD ⟨0, 0⟩).avgPrice *
                    ((objGet user.portfolio sym).getD ⟨0, 0⟩).quantity +
                    price * q) /
                   (((objGet user.portfolio sym).getD ⟨0, 0⟩).quantity + q)⟩ },
          st.transactions ++ [⟨userId, "BUY", sym, q, price, now⟩]⟩,
         .ok (user.cash - price * q)
           (objSet user.portfolio sym
             ⟨((objGet user.portfolio sym).getD ⟨0, 0⟩).quantity + q,
              (((objGet user.portfolio sym).getD ⟨0, 0⟩).avgPrice *
                 ((objGet user.portfolio sym).getD ⟨0, 0⟩).quantity +
                 price * q) /
                (((objGet user.portfolio sym).getD ⟨0, 0⟩).quantity + q)⟩)) := by
  rcases so with _ | sym
  · simp [buy, TradeResult.isOk] at hok
  rcases qo with _ | q
  · simp [buy, TradeResult.isOk] at hok
  by_cases h0 : sym = "" ∨ q = 0
  · simp [buy, h0, TradeResult.isOk] at hok
  rcases hfe : fetch (toUpperCase sym) with msg | price
  · simp [buy, h0, hfe, TradeResult.isOk] at hok
  rcases hu : objGet st.users userId with _ | user
  · simp [buy, h0, hfe, hu, TradeResult.isOk] at hok
  rcases hv : validateTradeChecks st.transactions now userId q price
    with _ | reason
  on_goal 2 => simp [buy, h0, hfe, hu, hv, TradeResult.isOk] at hok
  by_cases hc : user.cash < price * q
  · simp [buy, h0, hfe, hu, hv, hc, TradeResult.isOk] at hok
  refine ⟨sym, q, price, user, rfl, rfl, h0, ?_, ?_, ?_, hc, ?_⟩
  all_goals first
    | rfl
    | assumption
    | simp [buy, h0, hfe, hu, hv, hc]


/-- Inversion of a successful sell: the request fields were present and
truthy, the gateway returned a price, the user exists and holds at least
the requested quantity under the submitted symbol, and the resulting state
is the settlement of server.js lines 590-609: cash credited, quantity
decremented with the same `avgPrice`, the entry deleted when drained to 0,
and a `SELL` transaction appended. -/
theorem sell_ok_inv (st : ServerState) (fetch : PriceFeed) (now : ℚ)
    (userId : String) (so : Option String) (qo : Option ℚ)
    (hok : (sell st fetch now userId so qo).2.isOk = true) :
    ∃ sym q price user holding,
      so = some sym ∧ qo = some q ∧
      ¬ (sym = "" ∨ q = 0) ∧
      fetch (toUpperCase sym) = .ok price ∧
      objGet st.users userId = some user ∧
      validateTradeChecks st.transactions now userId q price = none ∧
      objGet user.portfolio sym = some holding ∧
      ¬ holding.quantity < q ∧
      sell st fetch now userId so qo =
        (⟨objSet st.users userId
            { user with
              cash := user.cash + price * q
              portfolio :=
                if holding.quantity - q = 0 then
                  objDelete user.portfolio sym
                else
                  objSet user.portfolio sym
                    { holding with quantity := holding.quantity - q } },
          st.transactions ++ [⟨userId, "SELL", sym, q, price, now⟩]⟩,
         .ok (user.cash + price * q)
           (if holding.quantity - q = 0 then
             objDelete user.portfolio sym
           else
             objSet user.portfolio sym
               { holding with quantity := holding.quantity - q })) := by
  rcases so with _ | sym
  · simp [sell, TradeResult.isOk] at hok
  rcases qo with _ | q
  · simp [sell, TradeResult.isOk] at hok
  by_cases h0 : sym = "" ∨ q = 0
  · simp [sell, h0, TradeResult.isOk] at hok
  rcases hfe : fetch (toUpperCase sym) with msg | price
  · simp [sell, h0, hfe, TradeResult.isOk] at hok
  rcases hu : objGet st.users userId with _ | user
  · simp [sell, h0, hfe, hu, TradeResult.isOk] at hok
  rcases hv : validateTradeChecks st.transactions now userId q price
    with _ | reason
  on_goal 2 => simp [sell, h0, hfe, hu, hv, TradeResult.isOk] at hok
  rcases hh : objGet user.portfolio sym with _ | holding
  · simp [sell, h0, hfe, hu, hv, hh, TradeResult.isOk] at hok
  by_cases hc : holding.quantity < q
  · simp [sell, h0, hfe, hu, hv, hh, hc, TradeResult.isOk] at hok
  refine ⟨sym, q, price, user, holding, rfl, rfl, h0, ?_, ?_, ?_, ?_, hc, ?_⟩
  all_goals first
    | rfl
    | assumption
    | simp [sell, h0, hfe, hu, hv, hh, hc]

/-! ## Preservation of the ledger invariants -/

theorem cashInvariant_applyOp (st : ServerState) (op : Op)
    (h : cashInvariant st) : cashInvariant (applyOp st op) := by
  cases op with
  | register now nuid tok hash uo po =>
    rcases uo with _ | un
    · exact h
    rcases po with _ | pw
    · exact h
    simp only [applyOp, register]
    repeat' split
    all_goals try exact h
    intro p hp
    rcases mem_objSet hp with rfl | hp'
    · norm_num
    · exact h p hp'
  | tutorialAnswer uid a =>
    simp only [applyOp]
    rcases hu : objGet st.users uid with _ | user
    · simpa [tutorialAnswer, hu] using h
    simp only [tutorialAnswer, hu]
    repeat' split
    all_goals try exact h
    · intro p hp
      rcases mem_objSet hp with rfl | hp'
      · norm_num
      · exact h p hp'
    · intro p hp
      rcases mem_objSet hp with rfl | hp'
      · simpa using h _ (objGet_mem hu)
      · exact h p hp'
  | buy fetch now uid so qo =>
    rcases buy_frame_or_ok st fetch now uid so qo with hfr | hok
    · simpa only [applyOp, hfr] using h
    obtain ⟨sym, q, price, user, hso, hqo, h0, hfe, hu, hv, hc, heq⟩ :=
      buy_ok_inv st fetch now uid so qo hok
    simp only [applyOp, heq]
    intro p hp
    rcases mem_objSet hp with rfl | hp'
    · simpa using sub_nonneg.mpr (not_lt.mp hc)
    · exact h p hp'
  | sell fetch now uid so qo =>
    rcases sell_frame_or_ok st fetch now uid so qo with hfr | hok
    · simpa only [applyOp, hfr] using h
    obtain ⟨sym, q, price, user, holding, hso, hqo, h0, hfe, hu, hv, hh, hc, heq⟩ :=
      sell_ok_inv st fetch now uid so qo hok
    obtain ⟨hq, _, hp0⟩ := validateTradeChecks_none hv
    simp only [applyOp, heq]
    intro p hp
    rcases mem_objSet hp with rfl | hp'
    · have : 0 ≤ price * q := le_of_lt (mul_pos hp0 hq)
      have hcash : 0 ≤ user.cash := h _ (objGet_mem hu)
      simpa using add_nonneg hcash this
    · exact h p hp'

theorem cashInvariant_applyOps (st : ServerState) (ops : List Op)
    (h : cashInvariant st) : cashInvariant (applyOps st ops) := by
  induction ops generalizing st with
  | nil => exact h
  | cons op rest ih => exact ih _ (cashInvariant_applyOp st op h)

theorem cashInvariant_initialState : cashInvariant initialState := by
  intro p hp
  simp [initialState] at hp

theorem portfolioInvariant_applyOp (st : ServerState) (op : Op)
    (h : portfolioInvariant st) : portfolioInvariant (applyOp st op) := by
  cases op with
  | register now nuid tok hash uo po =>
    rcases uo with _ | un
    · exact h
    rcases po with _ | pw
    · exact h
    simp only [applyOp, register]
    repeat' split
    all_goals try exact h
    intro p hp
    rcases mem_objSet hp with rfl | hp'
    · intro e he
      simp at he
    · exact h p hp'
  | tutorialAnswer uid a =>
    simp only [applyOp]
    rcases hu : objGet st.users uid with _ | user
    · simpa [tutorialAnswer, hu] using h
    simp only [tutorialAnswer, hu]
    repeat' split
    all_goals try exact h
    · intro p hp
      rcases mem_objSet hp with rfl | hp'
      · intro e he
        exact h _ (objGet_mem hu) e he
      · exact h p hp'
    · intro p hp
      rcases mem_objSet hp with rfl | hp'
      · intro e he
        exact h _ (objGet_mem hu) e he
      · exact h p hp'
  | buy fetch now uid so qo =>
    rcases buy_frame_or_ok st fetch now uid so qo with hfr | hok
    · simpa only [applyOp, hfr] using h
    obtain ⟨sym, q, price, user, hso, hqo, h0, hfe, hu, hv, hc, heq⟩ :=
      buy_ok_inv st fetch now uid so qo hok
    obtain ⟨hq, _, _⟩ := validateTradeChecks_none hv
    simp only [applyOp, heq]
    intro p hp
    rcases mem_objSet hp with rfl | hp'
    · intro e he
      rcases mem_objSet he with rfl | he'
      · rcases hold : objGet user.portfolio sym with _ | holding
        · simpa [hold] using hq
        · have : 0 < holding.quantity := h _ (objGet_mem hu) _ (objGet_mem hold)
          simpa [hold] using add_pos this hq
      · exact h _ (objGet_mem hu) e he'
    · exact h p hp'
  | sell fetch now uid so qo =>
    rcases sell_frame_or_ok st fetch now uid so qo with hfr | hok
    · simpa only [applyOp, hfr] using h
    obtain ⟨sym, q, price, user, holding, hso, hqo, h0, hfe, hu, hv, hh, hc, heq⟩ :=
      sell_ok_inv st fetch now uid so qo hok
    simp only [applyOp, heq]
    intro p hp
    rcases mem_objSet hp with rfl | hp'
    · intro e he
      by_cases hz : holding.quantity - q = 0
      · rw [if_pos hz] at he
        exact h _ (objGet_mem hu) e (mem_objDelete he)
      · rw [if_neg hz] at he
        rcases mem_objSet he with rfl | he'
        · have hle : q ≤ holding.quantity := not_lt.mp hc
          have : 0 ≤ holding.quantity - q := sub_nonneg.mpr hle
          simpa using lt_of_le_of_ne this (Ne.symm hz)
        · exact h _ (objGet_mem hu) e he'
    · exact h p hp'

theorem portfolioInvariant_applyOps (st : ServerState) (ops : List Op)
    (h : portfolioInvariant st) : portfolioInvariant (applyOps st ops) := by
  induction ops generalizing st with
  | nil => exact h
  | cons op rest ih => exact ih _ (portfolioInvariant_applyOp st op h)

theorem portfolioInvariant_initialState : portfolioInvariant initialState := by
  intro p hp
  simp [initialState] at hp

/-! ## Concrete fixtures used by the claim witnesses -/

/-- A registered user who completed the tutorial, with 10000 in cash and an
empty portfolio. -/
def demoUser : User :=
  { userId := "u1", username := "alice", password := "h", cash := 10000,
    portfolio := [], tutorialStep := 5, tutorialCompleted := true,
    uiTutorialCompleted := false, persistentSessions := [],
    createdAt := 0, lastActivity := 0 }

/-- A server state holding just `demoUser` and an empty ledger. -/
def demoState : ServerState := ⟨[("u1", demoUser)], []⟩

/-- A gateway that quotes the same price for every symbol. -/
def demoFeed (p : ℚ) : PriceFeed := fun _ => .ok p

/-- A gateway that is down: every fetch throws with the given message. -/
def downFeed (msg : String) : PriceFeed := fun _ => .error msg

/-- `demoUser` after buying and holding 20 shares of ABC at cost basis
150, with 500 in cash. -/
def sellUser : User :=
  { userId := "u1", username := "alice", password := "h", cash := 500,
    portfolio := [("ABC", ⟨20, 150⟩)], tutorialStep := 5,
    tutorialCompleted := true, uiTutorialCompleted := false,
    persistentSessions := [], createdAt := 0, lastActivity := 0 }

/-- A server state holding just `sellUser` and an empty ledger. -/
def sellState : ServerState := ⟨[("u1", sellUser)], []⟩

/-! ## JSON persistence

`saveUsers`/`saveTransactions` write `JSON.stringify` of the collection and
`loadData` reads it back with `JSON.parse` (server.js lines 96-125). A
stringify/parse pair is the identity on JSON trees, so the file contents
are modelled as the JSON tree itself: object fields appear in the
insertion order of the JS object, and numbers are carried exactly. -/

/-- A JSON value. -/
inductive Json where
  | null
  | bool (b : Bool)
  | num (q : ℚ)
  | str (s : String)
  | arr (elements : List Json)
  | obj (fields : List (String × Json))

/-- Encoding of a non-negative integer field such as `tutorialStep`. -/
def natToJson (n : ℕ) : Json := .num n

/-- Decoding of a non-negative integer field. -/
def natOfJson : Json → Option ℕ
  | .num q => if q.den = 1 ∧ 0 ≤ q.num then some q.num.toNat else none
  | _ => none

/-- `JSON.stringify` of one holding. -/
def holdingToJson (h : Holding) : Json :=
  .obj [("quantity", .num h.quantity), ("avgPrice", .num h.avgPrice)]

/-- Reading one holding back. -/
def holdingOfJson : Json → Option Holding
  | .obj [("quantity", .num q), ("avgPrice", .num a)] => some ⟨q, a⟩
  | _ => none

/-- `JSON.stringify` of a portfolio object. -/
def portfolioToJson (pf : Portfolio) : Json :=
  .obj (pf.map fun e => (e.1, holdingToJson e.2))

/-- Reading the fields of a portfolio object back, in order. -/
def portfolioFieldsOfJson : List (String × Json) → Option Portfolio
  | [] => some []
  | (k, j) :: rest =>
    match holdingOfJson j, portfolioFieldsOfJson rest with
    | some h, some pf => some ((k, h) :: pf)
    | _, _ => none

/-- Reading a portfolio object back. -/
def portfolioOfJson : Json → Option Portfolio
  | .obj fields => portfolioFieldsOfJson fields
  | _ => none

/-- `JSON.stringify` of one persistent session. -/
def sessionToJson (s : Session) : Json :=
  .obj [("token", .str s.token), ("expires", .num s.expires)]

/-- Reading one persistent session back. -/
def sessionOfJson : Json → Option Session
  | .obj [("token", .str t), ("expires", .num e)] => some ⟨t, e⟩
  | _ => none

/-- Reading a list of persistent sessions back, in order. -/
def sessionListOfJson : List Json → Option (List Session)
  | [] => some []
  | j :: rest =>
    match sessionOfJson j, sessionListOfJson rest with
    | some s, some ss => some (s :: ss)
    | _, _ => none

/-- `JSON.stringify` of one user record, fields in creation order
(server.js lines 303-315). -/
def userToJson (u : User) : Json :=
  .obj [("userId", .str u.userId), ("username", .str u.username),
        ("password", .str u.password), ("cash", .num u.cash),
        ("portfolio", portfolioToJson u.portfolio),
        ("tutorialStep", natToJson u.tutorialStep),
        ("tutorialCompleted", .bool u.tutorialCompleted),
        ("uiTutorialCompleted", .bool u.uiTutorialCompleted),
        ("persistentSessions", .arr (u.persistentSessions.map sessionToJson)),
        ("createdAt", .num u.createdAt),
        ("lastActivity", .num u.lastActivity)]

/-- Reading a string field back. -/
def strOfJson : Json → Option String
  | .str s => some s
  | _ => none

/-- Reading a numeric field back. -/
def numOfJson : Json → Option ℚ
  | .num q => some q
  | _ => none

/-- Reading a boolean field back. -/
def boolOfJson : Json → Option Bool
  | .bool b => some b
  | _ => none

/-- Reading an array of sessions back. -/
def sessionArrOfJson : Json → Option (List Session)
  | .arr elements => sessionListOfJson elements
  | _ => none

/-- Reading one user record back: the eleven fields of a stored user, by
name and in stored order. -/
def userOfJson : Json → Option User
  | .obj [(k1, j1), (k2, j2), (k3, j3), (k4, j4), (k5, j5), (k6, j6),
          (k7, j7), (k8, j8), (k9, j9), (k10, j10), (k11, j11)] =>
    if k1 = "userId" ∧ k2 = "username" ∧ k3 = "password" ∧ k4 = "cash" ∧
        k5 = "portfolio" ∧ k6 = "tutorialStep" ∧ k7 = "tutorialCompleted" ∧
        k8 = "uiTutorialCompleted" ∧ k9 = "persistentSessions" ∧
        k10 = "createdAt" ∧ k11 = "lastActivity" then
      (strOfJson j1).bind fun userId =>
      (strOfJson j2).bind fun username =>
      (strOfJson j3).bind fun password =>
      (numOfJson j4).bind fun cash =>
      (portfolioOfJson j5).bind fun portfolio =>
      (natOfJson j6).bind fun tutorialStep =>
      (boolOfJson j7).bind fun tutorialCompleted =>
      (boolOfJson j8).bind fun uiTutorialCompleted =>
      (sessionArrOfJson j9).bind fun persistentSessions =>
      (numOfJson j10).bind fun createdAt =>
      (numOfJson j11).bind fun lastActivity =>
      some ⟨userId, username, password, cash, portfolio, tutorialStep,
        tutorialCompleted, uiTutorialCompleted, persistentSessions,
        createdAt, lastActivity⟩
    else none
  | _ => none

/-- `JSON.stringify(users)`: the content of `data/users.json` after
`saveUsers` (server.js lines 111-117). -/
def usersToJson (us : Users) : Json :=
  .obj (us.map fun p => (p.1, userToJson p.2))

/-- Reading the fields of the users object back, in order. -/
def usersFieldsOfJson : List (String × Json) → Option Users
  | [] => some []
  | (k, j) :: rest =>
    match userOfJson j, usersFieldsOfJson rest with
    | some u, some us => some ((k, u) :: us)
    | _, _ => none

/-- `JSON.parse` of `data/users.json` as the typed users map, the users
branch of `loadData` (server.js lines 98-101). -/
def usersOfJson : Json → Option Users
  | .obj fields => usersFieldsOfJson fields
  | _ => none

/-- `JSON.stringify` of one transaction record, fields in creation order
(server.js lines 545-552). -/
def transactionToJson (t : Transaction) : Json :=
  .obj [("userId", .str t.userId), ("type", .str t.type),
        ("symbol", .str t.symbol), ("quantity", .num t.quantity),
        ("price", .num t.price), ("timestamp", .num t.timestamp)]

/-- Reading one transaction record back. -/
def transactionOfJson : Json → Option Transaction
  | .obj [("userId", .str userId), ("type", .str type),
          ("symbol", .str symbol), ("quantity", .num quantity),
          ("price", .num price), ("timestamp", .num timestamp)] =>
    some ⟨userId, type, symbol, quantity, price, timestamp⟩
  | _ => none

/-- Reading a list of transactions back, preserving insertion order. -/
def transactionListOfJson : List Json → Option (List Transaction)
  | [] => some []
  | j :: rest =>
    match transactionOfJson j, transactionListOfJson rest with
    | some t, some ts => some (t :: ts)
    | _, _ => none

/-- `JSON.stringify(transactions)`: the content of
`data/transactions.json` after `saveTransactions` (server.js 119-125). -/
def transactionsToJson (ts : List Transaction) : Json :=
  .arr (ts.map transactionToJson)

/-- `JSON.parse` of `data/transactions.json`, the transactions branch of
`loadData` (server.js lines 102-105). -/
def transactionsOfJson : Json → Option (List Transaction)
  | .arr elements => transactionListOfJson elements
  | _ => none

theorem natOfJson_natToJson (n : ℕ) : natOfJson (natToJson n) = some n := by
  simp [natToJson, natOfJson]

theorem holdingOfJson_holdingToJson (h : Holding) :
    holdingOfJson (holdingToJson h) = some h := rfl

theorem portfolioFieldsOfJson_map (pf : Portfolio) :
    portfolioFieldsOfJson (pf.map fun e => (e.1, holdingToJson e.2)) =
      some pf := by
  induction pf with
  | nil => rfl
  | cons e rest ih =>
    obtain ⟨k, h⟩ := e
    simp only [List.map_cons, portfolioFieldsOfJson,
      holdingOfJson_holdingToJson, ih]

theorem portfolioOfJson_portfolioToJson (pf : Portfolio) :
    portfolioOfJson (portfolioToJson pf) = some pf := by
  simp only [portfolioToJson, portfolioOfJson, portfolioFieldsOfJson_map]

theorem sessionOfJson_sessionToJson (s : Session) :
    sessionOfJson (sessionToJson s) = some s := rfl

theorem sessionListOfJson_map (ss : List Session) :
    sessionListOfJson (ss.map sessionToJson) = some ss := by
  induction ss with
  | nil => rfl
  | cons s rest ih =>
    simp only [List.map_cons, sessionListOfJson, sessionOfJson_sessionToJson,
      ih]

theorem userOfJson_userToJson (u : User) :
    userOfJson (userToJson u) = some u := by
  simp only [userToJson, userOfJson, strOfJson, numOfJson, boolOfJson,
    sessionArrOfJson, portfolioOfJson_portfolioToJson, natOfJson_natToJson,
    sessionListOfJson_map, Option.bind_some, Option.some_bind, and_self,
    if_true, if_pos]

theorem usersFieldsOfJson_map (us : Users) :
    usersFieldsOfJson (us.map fun p => (p.1, userToJson p.2)) = some us := by
  induction us with
  | nil => rfl
  | cons p rest ih =>
    obtain ⟨k, u⟩ := p
    simp only [List.map_cons, usersFieldsOfJson, userOfJson_userToJson, ih]

theorem usersOfJson_usersToJson (us : Users) :
    usersOfJson (usersToJson us) = some us := by
  simp only [usersToJson, usersOfJson, usersFieldsOfJson_map]

theorem transactionOfJson_transactionToJson (t : Transaction) :
    transactionOfJson (transactionToJson t) = some t := rfl

theorem transactionListOfJson_map (ts : List Transaction) :
    transactionListOfJson (ts.map transactionToJson) = some ts := by
  induction ts with
  | nil => rfl
  | cons t rest ih =>
    simp only [List.map_cons, transactionListOfJson,
      transactionOfJson_transactionToJson, ih]

theorem transactionsOfJson_transactionsToJson (ts : List Transaction) :
    transactionsOfJson (transactionsToJson ts) = some ts := by
  simp only [transactionsToJson, transactionsOfJson,
    transactionListOfJson_map]

/-- `saveUsers()` (server.js lines 111-117): the users file holds
`JSON.stringify(users, null, 2)`, modelled as the JSON tree it prints. -/
def saveUsersFile (us : Users) : Json := usersToJson us

/-- The users branch of `loadData()` (server.js lines 98-101):
`users = JSON.parse(file)`, read back as the typed users map. -/
def loadUsersFile (j : Json) : Option Users := usersOfJson j

/-- `saveTransactions()` (server.js lines 119-125): the transactions file
holds `JSON.stringify(transactions, null, 2)`. -/
def saveTransactionsFile (ts : List Transaction) : Json :=
  transactionsToJson ts

/-- The transactions branch of `loadData()` (server.js lines 102-105). -/
def loadTransactionsFile (j : Json) : Option (List Transaction) :=
  transactionsOfJson j

/-! ## Claim theorems -/

/-- C1: every successful buy of quantity `q` at fetched price `price`
against an existing holding of `q0` shares at average price `a0`
(`q0 = 0`, `a0 = 0` when no holding exists) leaves a holding of
`q0 + q` shares with `avgPrice = (a0 * q0 + price * q) / (q0 + q)`;
concretely, buying 10 shares at 100 and then 10 more at 200 yields
`quantity = 20` and `avgPrice = 150`. -/
theorem buy_weighted_average_cost :
    (∀ (st : ServerState) (fetch : PriceFeed) (now : ℚ) (userId sym : String)
       (q price : ℚ) (user : User),
       objGet st.users userId = some user →
       fetch (toUpperCase sym) = .ok price →
       (buy st fetch now userId (some sym) (some q)).2.isOk = true →
       ∃ user',
         objGet (buy st fetch now userId (some sym) (some q)).1.users userId =
           some user' ∧
         objGet user'.portfolio sym =
           some ⟨((objGet user.portfolio sym).getD ⟨0, 0⟩).quantity + q,
                 (((objGet user.portfolio sym).getD ⟨0, 0⟩).avgPrice *
                    ((objGet user.portfolio sym).getD ⟨0, 0⟩).quantity +
                    price * q) /
                   (((objGet user.portfolio sym).getD ⟨0, 0⟩).quantity + q)⟩) ∧
    (buy (buy demoState (demoFeed 100) 0 "u1" (some "ABC") (some 10)).1
        (demoFeed 200) 1 "u1" (some "ABC") (some 10)).2 =
      .ok 7000 [("ABC", ⟨20, 150⟩)] := by
  constructor
  · intro st fetch now userId sym q price user hu hfe hok
    obtain ⟨sym', q', price', user'', hso, hqo, h0, hfe', hu', hv, hc, heq⟩ :=
      buy_ok_inv _ _ _ _ _ _ hok
    obtain rfl := Option.some_injective _ hso
    obtain rfl := Option.some_injective _ hqo
    rw [hfe] at hfe'
    injection hfe' with hpe
    subst hpe
    rw [hu] at hu'
    obtain rfl := Option.some_injective _ hu'
    rw [heq]
    exact ⟨_, objGet_objSet_self _ _ _, objGet_objSet_self _ _ _⟩
  · norm_num +decide [buy, demoState, demoUser, demoFeed, objGet, objSet,
      validateTradeChecks, isInteger, toUpperCase, toUpperChar, List.filter]

theorem buy_weighted_average_cost_witness :
    ∃ user',
      objGet (buy demoState (demoFeed 100) 0 "u1" (some "ABC")
          (some 10)).1.users "u1" = some user' ∧
      objGet user'.portfolio "ABC" =
        some ⟨((objGet demoUser.portfolio "ABC").getD ⟨0, 0⟩).quantity + 10,
              (((objGet demoUser.portfolio "ABC").getD ⟨0, 0⟩).avgPrice *
                 ((objGet demoUser.portfolio "ABC").getD ⟨0, 0⟩).quantity +
                 100 * 10) /
                (((objGet demoUser.portfolio "ABC").getD ⟨0, 0⟩).quantity + 10)⟩ :=
  buy_weighted_average_cost.1 demoState (demoFeed 100) 0 "u1" "ABC" 10 100
    demoUser rfl rfl
    (by norm_num +decide [buy, demoState, demoUser, demoFeed, objGet, objSet,
      validateTradeChecks, isInteger, toUpperCase, toUpperChar,
      TradeResult.isOk])

/-- C2: starting from the fresh state, every sequence of registrations,
tutorial answers (the cash award), buys and sells keeps every account's
cash non-negative; and a buy whose cost `price * q` exceeds the user's
cash is rejected with `Insufficient funds` and leaves the state, hence the
cash, unchanged. -/
theorem cash_never_negative :
    (∀ ops : List Op, cashInvariant (applyOps initialState ops)) ∧
    (∀ (st : ServerState) (fetch : PriceFeed) (now : ℚ) (userId sym : String)
       (q price : ℚ) (user : User),
       ¬ (sym = "" ∨ q = 0) →
       fetch (toUpperCase sym) = .ok price →
       objGet st.users userId = some user →
       validateTradeChecks st.transactions now userId q price = none →
       user.cash < price * q →
       buy st fetch now userId (some sym) (some q) =
         (st, .clientError "Insufficient funds")) := by
  constructor
  · intro ops
    exact cashInvariant_applyOps _ _ cashInvariant_initialState
  · intro st fetch now userId sym q price user h0 hfe hu hv hc
    simp [buy, h0, hfe, hu, hv, hc]

theorem cash_never_negative_witness :
    cashInvariant (applyOps initialState []) ∧
    buy demoState (demoFeed 100) 0 "u1" (some "ABC") (some 1000) =
      (demoState, .clientError "Insufficient funds") :=
  ⟨cash_never_negative.1 [],
   cash_never_negative.2 demoState (demoFeed 100) 0 "u1" "ABC" 1000 100
     demoUser (by decide) rfl rfl
     (by norm_num +decide [validateTradeChecks, isInteger, demoState])
     (by norm_num [demoUser])⟩

/-- C3: a buy or sell call that does not succeed — missing/falsy request
fields, a gateway fetch error, or any validator or settlement rejection —
returns the server state exactly as it was: no cash or portfolio change
and no transaction appended; the result carries only the reason string. -/
theorem failed_trade_no_mutation :
    ∀ (st : ServerState) (fetch : PriceFeed) (now : ℚ) (userId : String)
      (so : Option String) (qo : Option ℚ),
      ((buy st fetch now userId so qo).2.isOk = false →
        (buy st fetch now userId so qo).1 = st) ∧
      ((sell st fetch now userId so qo).2.isOk = false →
        (sell st fetch now userId so qo).1 = st) := by
  intro st fetch now userId so qo
  constructor
  · intro h
    rcases buy_frame_or_ok st fetch now userId so qo with hfr | hok
    · exact hfr
    · rw [hok] at h
      exact absurd h (by simp)
  · intro h
    rcases sell_frame_or_ok st fetch now userId so qo with hfr | hok
    · exact hfr
    · rw [hok] at h
      exact absurd h (by simp)

theorem failed_trade_no_mutation_witness :
    (buy initialState (demoFeed 100) 0 "u1" (some "ABC") (some 1)).1 =
      initialState :=
  (failed_trade_no_mutation initialState (demoFeed 100) 0 "u1" (some "ABC")
      (some 1)).1
    (by norm_num +decide [buy, initialState, demoFeed, objGet,
      toUpperCase, toUpperChar, TradeResult.isOk])

/-- C6: a successful sell of `k` shares from a holding `⟨q, a⟩` with
`k < q` credits `price * k` to cash, leaves the holding as `⟨q - k, a⟩`
with `avgPrice` unchanged, modifies no other field of the user, and
appends exactly one `SELL` transaction. -/
theorem sell_preserves_avgPrice :
    ∀ (st : ServerState) (fetch : PriceFeed) (now : ℚ) (userId sym : String)
      (k price q a : ℚ) (user : User),
      ¬ (sym = "" ∨ k = 0) →
      fetch (toUpperCase sym) = .ok price →
      objGet st.users userId = some user →
      validateTradeChecks st.transactions now userId k price = none →
      objGet user.portfolio sym = some ⟨q, a⟩ →
      k < q →
      sell st fetch now userId (some sym) (some k) =
        (⟨objSet st.users userId
            { user with
              cash := user.cash + price * k
              portfolio := objSet user.portfolio sym ⟨q - k, a⟩ },
          st.transactions ++ [⟨userId, "SELL", sym, k, price, now⟩]⟩,
         .ok (user.cash + price * k)
           (objSet user.portfolio sym ⟨q - k, a⟩)) := by
  intro st fetch now userId sym k price q a user h0 hfe hu hv hh hlt
  have hc : ¬ ((⟨q, a⟩ : Holding).quantity < k) := not_lt.mpr (le_of_lt hlt)
  have hz : ¬ ((⟨q, a⟩ : Holding).quantity - k = 0) :=
    sub_ne_zero.mpr (LT.lt.ne' hlt)
  simp [sell, h0, hfe, hu, hv, hh, hc, hz]

theorem sell_preserves_avgPrice_witness :
    sell sellState (demoFeed 60) 0 "u1" (some "ABC") (some 5) =
      (⟨objSet sellState.users "u1"
          { sellUser with
            cash := sellUser.cash + 60 * 5
            portfolio := objSet sellUser.portfolio "ABC" ⟨20 - 5, 150⟩ },
        sellState.transactions ++ [⟨"u1", "SELL", "ABC", 5, 60, 0⟩]⟩,
       .ok (sellUser.cash + 60 * 5)
         (objSet sellUser.portfolio "ABC" ⟨20 - 5, 150⟩)) :=
  sell_preserves_avgPrice sellState (demoFeed 60) 0 "u1" "ABC" 5 60 20 150
    sellUser (by decide) rfl rfl
    (by norm_num +decide [validateTradeChecks, isInteger, sellState]) rfl
    (by norm_num)

/-- C7 as amended: in both buy and sell the gateway fetch runs before the
trade validator, so a request for a non-existent userId fails with
`User not found` when the fetch succeeds, but surfaces the gateway error
instead when the fetch fails. -/
theorem fetch_precedes_validator :
    ∀ (st : ServerState) (fetch : PriceFeed) (now : ℚ) (userId sym : String)
      (q : ℚ),
      objGet st.users userId = none →
      ¬ (sym = "" ∨ q = 0) →
      (∀ price, fetch (toUpperCase sym) = .ok price →
        buy st fetch now userId (some sym) (some q) =
          (st, .clientError "User not found") ∧
        sell st fetch now userId (some sym) (some q) =
          (st, .clientError "User not found")) ∧
      (∀ msg, fetch (toUpperCase sym) = .error msg →
        buy st fetch now userId (some sym) (some q) =
          (st, .serverError msg) ∧
        sell st fetch now userId (some sym) (some q) =
          (st, .serverError msg)) := by
  intro st fetch now userId sym q hu h0
  constructor
  · intro price hfe
    constructor
    · simp [buy, h0, hfe, hu]
    · simp [sell, h0, hfe, hu]
  · intro msg hfe
    constructor
    · simp [buy, h0, hfe]
    · simp [sell, h0, hfe]

/-- C7, the claim as frozen, is false on the code: with the gateway down,
a buy attributed to a non-existent userId returns the gateway error, not
`User not found`. -/
theorem fetch_precedes_validator_counterexample :
    (buy initialState (downFeed "Error fetching AAPL: boom") 0 "ghost"
        (some "AAPL") (some 1)).2 =
      .serverError "Error fetching AAPL: boom" ∧
    (buy initialState (downFeed "Error fetching AAPL: boom") 0 "ghost"
        (some "AAPL") (some 1)).2 ≠ .clientError "User not found" := by
  have h1 : (buy initialState (downFeed "Error fetching AAPL: boom") 0 "ghost"
      (some "AAPL") (some 1)).2 = .serverError "Error fetching AAPL: boom" := by
    norm_num +decide [buy, downFeed, toUpperCase, toUpperChar]
  refine ⟨h1, ?_⟩
  rw [h1]
  simp

/-- One row of the `GET /api/leaderboard` response (server.js 649-654). -/
structure LeaderboardEntry where
  username : String
  totalValue : ℚ
  cash : ℚ
  portfolioValue : ℚ
deriving Repr, DecidableEq

/-- The leaderboard order: descending by `totalValue`, the effect of the JS
comparator `(a, b) => b.totalValue - a.totalValue` (server.js line 657). -/
def lbGE (a b : LeaderboardEntry) : Prop := b.totalValue ≤ a.totalValue

instance : DecidableRel lbGE :=
  fun a b => inferInstanceAs (Decidable (b.totalValue ≤ a.totalValue))

instance : IsTotal LeaderboardEntry lbGE :=
  ⟨fun a b => le_total b.totalValue a.totalValue⟩

instance : IsTrans LeaderboardEntry lbGE :=
  ⟨fun _ _ _ hab hbc => le_trans hbc hab⟩

/-- The contribution of one portfolio entry to a user's mark-to-market
value (server.js 640-647): `price * quantity` when the per-symbol fetch
succeeds, and nothing — the error is only logged — when it fails. The
leaderboard fetches the stored symbol as-is, without upper-casing. -/
def holdingValue (fetch : PriceFeed) (e : String × Holding) : ℚ :=
  match fetch e.1 with
  | .ok price => price * e.2.quantity
  | .error _ => 0

/-- One user's leaderboard row (server.js 637-654): `totalValue` starts at
`cash` and accumulates each successfully priced holding. -/
def leaderboardEntry (fetch : PriceFeed) (user : User) : LeaderboardEntry :=
  let totalValue := user.cash + (user.portfolio.map (holdingValue fetch)).sum
  ⟨user.username, totalValue, user.cash, totalValue - user.cash⟩

/-- `GET /api/leaderboard` (server.js 633-660): one row per user, sorted
descending by `totalValue`, truncated to the top 100. -/
def computeLeaderboard (st : ServerState) (fetch : PriceFeed) :
    List LeaderboardEntry :=
  ((st.users.map (fun p => leaderboardEntry fetch p.2)).insertionSort
    lbGE).take 100

/-- A user with plenty of cash, for exercising the rapid-trading guard. -/
def richUser : User :=
  { userId := "u1", username := "alice", password := "h", cash := 1000000,
    portfolio := [], tutorialStep := 5, tutorialCompleted := true,
    uiTutorialCompleted := false, persistentSessions := [],
    createdAt := 0, lastActivity := 0 }

/-- A server state holding just `richUser` and an empty ledger. -/
def rapidState : ServerState := ⟨[("u1", richUser)], []⟩

/-- One valid buy request submitted at time 0: 1 share of ABC at price 1. -/
def rapidOp : Op := .buy (demoFeed 1) 0 "u1" (some "ABC") (some 1)

/-- C4, the claim as frozen, is false on the code: after 5 buys recorded in
the trailing window the 6th valid buy still succeeds, because the guard
fires only when strictly more than 5 transactions fall in the window. -/
theorem rapid_trading_counterexample :
    (buy (applyOps rapidState (List.replicate 5 rapidOp)) (demoFeed 1) 0 "u1"
        (some "ABC") (some 1)).2 ≠ .clientError "Trading too quickly" ∧
    (buy (applyOps rapidState (List.replicate 5 rapidOp)) (demoFeed 1) 0 "u1"
        (some "ABC") (some 1)).2.isOk = true := by
  have h : (buy (applyOps rapidState (List.replicate 5 rapidOp)) (demoFeed 1)
      0 "u1" (some "ABC") (some 1)).2.isOk = true := by
    norm_num +decide [applyOps, applyOp, rapidOp, buy, rapidState, richUser,
      demoFeed, objGet, objSet, validateTradeChecks, isInteger, toUpperCase,
      toUpperChar, List.filter, List.replicate, TradeResult.isOk]
  refine ⟨fun hc => ?_, h⟩
  rw [hc] at h
  simp [TradeResult.isOk] at h

/-- C4 as amended: for a user with sufficient cash submitting identical
valid buy requests within the same 1000 ms window, the first 6 succeed and
are recorded in the ledger, and the 7th is rejected with
`Trading too quickly` — the guard counts the user's transactions in the
trailing 1000 ms window and fires when that count exceeds 5. -/
theorem rapid_trading_guard :
    (∀ k : ℕ, k < 6 →
      (buy (applyOps rapidState (List.replicate k rapidOp)) (demoFeed 1) 0
          "u1" (some "ABC") (some 1)).2.isOk = true) ∧
    (applyOps rapidState (List.replicate 6 rapidOp)).transactions.length = 6 ∧
    (buy (applyOps rapidState (List.replicate 6 rapidOp)) (demoFeed 1) 0 "u1"
        (some "ABC") (some 1)).2 = .clientError "Trading too quickly" := by
  refine ⟨?_, ?_, ?_⟩
  · intro k hk
    interval_cases k <;>
      norm_num +decide [applyOps, applyOp, rapidOp, buy, rapidState, richUser,
        demoFeed, objGet, objSet, validateTradeChecks, isInteger, toUpperCase,
        toUpperChar, List.filter, List.replicate, TradeResult.isOk]
  · norm_num +decide [applyOps, applyOp, rapidOp, buy, rapidState, richUser,
      demoFeed, objGet, objSet, validateTradeChecks, isInteger, toUpperCase,
      toUpperChar, List.filter, List.replicate]
  · norm_num +decide [applyOps, applyOp, rapidOp, buy, rapidState, richUser,
      demoFeed, objGet, objSet, validateTradeChecks, isInteger, toUpperCase,
      toUpperChar, List.filter, List.replicate]

theorem rapid_trading_guard_witness :
    (buy (applyOps rapidState (List.replicate 0 rapidOp)) (demoFeed 1) 0 "u1"
        (some "ABC") (some 1)).2.isOk = true :=
  rapid_trading_guard.1 0 (by norm_num)

/-- C5: after every sequence of operations from the fresh state, every
symbol present in any portfolio has positive quantity; and a sell of the
entire held quantity removes the symbol's entry from the portfolio. -/
theorem positive_holdings_only :
    (∀ ops : List Op, portfolioInvariant (applyOps initialState ops)) ∧
    (∀ (st : ServerState) (fetch : PriceFeed) (now : ℚ) (userId sym : String)
       (q price : ℚ) (user : User) (holding : Holding),
       ¬ (sym = "" ∨ q = 0) →
       fetch (toUpperCase sym) = .ok price →
       objGet st.users userId = some user →
       validateTradeChecks st.transactions now userId q price = none →
       objGet user.portfolio sym = some holding →
       holding.quantity = q →
       ∃ user',
         objGet (sell st fetch now userId (some sym) (some q)).1.users
           userId = some user' ∧
         objGet user'.portfolio sym = none) := by
  constructor
  · intro ops
    exact portfolioInvariant_applyOps _ _ portfolioInvariant_initialState
  · intro st fetch now userId sym q price user holding h0 hfe hu hv hh hq
    have hc : ¬ holding.quantity < q := by
      rw [hq]
      exact lt_irrefl q
    have hz : holding.quantity - q = 0 := by
      rw [hq]
      exact sub_self q
    have hok : (sell st fetch now userId (some sym) (some q)).2.isOk = true := by
      simp [sell, h0, hfe, hu, hv, hh, hc, TradeResult.isOk]
    obtain ⟨sym', q', price', user'', holding', hso, hqo, _, hfe', hu', hv',
      hh', hc', heq⟩ := sell_ok_inv _ _ _ _ _ _ hok
    obtain rfl := Option.some_injective _ hso
    obtain rfl := Option.some_injective _ hqo
    rw [hu] at hu'
    obtain rfl := Option.some_injective _ hu'
    rw [hh] at hh'
    obtain rfl := Option.some_injective _ hh'
    rw [heq]
    dsimp only
    rw [if_pos hz]
    exact ⟨_, objGet_objSet_self _ _ _, objGet_objDelete_self _ _⟩

theorem positive_holdings_only_witness :
    ∃ user',
      objGet (sell sellState (demoFeed 60) 0 "u1" (some "ABC")
          (some 20)).1.users "u1" = some user' ∧
      objGet user'.portfolio "ABC" = none :=
  positive_holdings_only.2 sellState (demoFeed 60) 0 "u1" "ABC" 20 60
    sellUser ⟨20, 150⟩ (by decide) rfl rfl
    (by norm_num +decide [validateTradeChecks, isInteger, sellState]) rfl rfl

/-- A gateway that knows only the upper-cased symbol ABC. -/
def caseFeed : PriceFeed :=
  fun s => if s = "ABC" then .ok 50 else .error "Error fetching: not found"

/-- C10: buys store the holding under the symbol exactly as submitted
while fetching the price for the upper-cased symbol, so buying `AbC` and
then `abc` creates two distinct entries both priced by the single fetch
for `ABC`; a subsequent sell naming the casing `ABC`, which is not a key
of the portfolio, fails with `Insufficient shares`. -/
theorem symbol_case_sensitivity :
    ((buy (buy demoState caseFeed 0 "u1" (some "AbC") (some 1)).1 caseFeed 0
        "u1" (some "abc") (some 1)).2 =
      .ok 9900 [("AbC", ⟨1, 50⟩), ("abc", ⟨1, 50⟩)]) ∧
    ((sell (buy (buy demoState caseFeed 0 "u1" (some "AbC") (some 1)).1
          caseFeed 0 "u1" (some "abc") (some 1)).1 caseFeed 0 "u1"
        (some "ABC") (some 1)).2 = .clientError "Insufficient shares") := by
  constructor
  · norm_num +decide [buy, demoState, demoUser, caseFeed, objGet, objSet,
      validateTradeChecks, isInteger, toUpperCase, toUpperChar, List.filter]
  · norm_num +decide [buy, sell, demoState, demoUser, caseFeed, objGet,
      objSet, validateTradeChecks, isInteger, toUpperCase, toUpperChar,
      List.filter]

/-- C9: the leaderboard has at most 100 entries, is sorted in descending
order of `totalValue`, and every entry is some user's row with
`totalValue = cash + Σ` (over holdings whose fetch succeeds) of
`price × quantity`; a holding whose per-symbol fetch fails contributes
nothing to the valuation while the computation as a whole still returns. -/
theorem leaderboard_spec :
    ∀ (st : ServerState) (fetch : PriceFeed),
      (computeLeaderboard st fetch).length ≤ 100 ∧
      (computeLeaderboard st fetch).Sorted lbGE ∧
      (∀ e ∈ computeLeaderboard st fetch, ∃ p ∈ st.users,
        e = leaderboardEntry fetch p.2 ∧
        e.totalValue =
          p.2.cash + (p.2.portfolio.map (holdingValue fetch)).sum ∧
        e.portfolioValue = e.totalValue - e.cash) ∧
      (∀ (sym : String) (h : Holding) (msg : String),
        fetch sym = .error msg → holdingValue fetch (sym, h) = 0) := by
  intro st fetch
  refine ⟨?_, ?_, ?_, ?_⟩
  · rw [computeLeaderboard, List.length_take]
    exact min_le_left _ _
  · exact List.Pairwise.sublist (List.take_sublist _ _)
      (List.sorted_insertionSort lbGE _)
  · intro e he
    have he' : e ∈ (st.users.map
        (fun p => leaderboardEntry fetch p.2)).insertionSort lbGE :=
      List.mem_of_mem_take he
    rw [List.mem_insertionSort] at he'
    obtain ⟨p, hp, rfl⟩ := List.mem_map.mp he'
    exact ⟨p, hp, rfl, rfl, rfl⟩
  · intro sym h msg hmsg
    simp [holdingValue, hmsg]

theorem leaderboard_spec_witness :
    (∃ p ∈ demoState.users,
      leaderboardEntry (demoFeed 1) demoUser =
        leaderboardEntry (demoFeed 1) p.2 ∧
      (leaderboardEntry (demoFeed 1) demoUser).totalValue =
        p.2.cash + (p.2.portfolio.map (holdingValue (demoFeed 1))).sum ∧
      (leaderboardEntry (demoFeed 1) demoUser).portfolioValue =
        (leaderboardEntry (demoFeed 1) demoUser).totalValue -
          (leaderboardEntry (demoFeed 1) demoUser).cash) ∧
    holdingValue (downFeed "gone") ("A", ⟨1, 1⟩) = 0 :=
  ⟨(leaderboard_spec demoState (demoFeed 1)).2.2.1
      (leaderboardEntry (demoFeed 1) demoUser)
      (by norm_num +decide [computeLeaderboard, demoState, demoUser,
        leaderboardEntry, holdingValue, demoFeed, lbGE]),
   (leaderboard_spec initialState (downFeed "gone")).2.2.2 "A" ⟨1, 1⟩ "gone"
     rfl⟩

/-- C8: saving the `users` and `transactions` collections and loading them
back reproduces collections identical to the originals — every field of
every user and transaction, with the insertion order of both the users
map and the transactions list preserved. -/
theorem persistence_round_trip :
    ∀ (us : Users) (ts : List Transaction),
      loadUsersFile (saveUsersFile us) = some us ∧
      loadTransactionsFile (saveTransactionsFile ts) = some ts := by
  intro us ts
  exact ⟨by simp only [loadUsersFile, saveUsersFile, usersOfJson_usersToJson],
    by simp only [loadTransactionsFile, saveTransactionsFile,
      transactionsOfJson_transactionsToJson]⟩

theorem fetch_precedes_validator_witness :
    (buy initialState (demoFeed 100) 0 "ghost" (some "AAPL") (some 1) =
      (initialState, .clientError "User not found") ∧
     sell initialState (demoFeed 100) 0 "ghost" (some "AAPL") (some 1) =
      (initialState, .clientError "User not found")) ∧
    (buy initialState (downFeed "down") 0 "ghost" (some "AAPL") (some 1) =
      (initialState, .serverError "down") ∧
     sell initialState (downFeed "down") 0 "ghost" (some "AAPL") (some 1) =
      (initialState, .serverError "down")) :=
  ⟨(fetch_precedes_validator initialState (demoFeed 100) 0 "ghost" "AAPL" 1
      rfl (by decide)).1 100 rfl,
   (fetch_precedes_validator initialState (downFeed "down") 0 "ghost" "AAPL" 1
      rfl (by decide)).2 "down" rfl⟩

end StockSim
